import Mathlib

/-!
Verification of the authd daemon against its specification.

Shallow embedding conventions:
* Go byte strings are `List Nat` (each element < 256); ASCII case mapping is
  modelled byte-wise, as Go's lowercase/uppercase act on ASCII letters.
* Machine integers are `Nat` with explicit `% 2^32` where Go wraps.
* Fallible operations return `Except`/`Option`; OS-level file operations that
  the code only logs about on failure are modelled as succeeding.
-/

namespace Authd

/-! ## SHA-256 (Go crypto/sha256), bytes as `List Nat` -/

/-- The word modulus of SHA-256 arithmetic, 2^32. -/
def w32 : Nat := 4294967296

/-- Right rotation of a 32-bit word. -/
def rotr32 (n x : Nat) : Nat := ((x >>> n) ||| (x <<< (32 - n))) % w32

/-- 32-bit addition with wraparound. -/
def add32 (a b : Nat) : Nat := (a + b) % w32

/-- Big-endian interpretation of a byte list (used on 4-byte slices). -/
def beBytesToNat (bs : List Nat) : Nat := bs.foldl (fun acc b => acc * 256 + b) 0

/-- The 4 big-endian bytes of a 32-bit word. -/
def be32 (n : Nat) : List Nat :=
  [(n >>> 24) % 256, (n >>> 16) % 256, (n >>> 8) % 256, n % 256]

/-- The 8 big-endian bytes of a 64-bit length field. -/
def be64 (n : Nat) : List Nat :=
  [(n >>> 56) % 256, (n >>> 48) % 256, (n >>> 40) % 256, (n >>> 32) % 256,
   (n >>> 24) % 256, (n >>> 16) % 256, (n >>> 8) % 256, n % 256]

/-- Helper for `chunksOf`: structural recursion over the list, collecting the
current chunk in reverse in `cur`. -/
def chunksOfAux (n : Nat) : List Nat → List Nat → List (List Nat)
  | [], cur => if cur.isEmpty then [] else [cur.reverse]
  | b :: rest, cur =>
    if cur.length + 1 = n then (cur.reverse ++ [b]) :: chunksOfAux n rest []
    else chunksOfAux n rest (b :: cur)

/-- Split a list into chunks of `n` elements (the last may be shorter). -/
def chunksOf (n : Nat) (l : List Nat) : List (List Nat) :=
  if n = 0 then [] else chunksOfAux n l []

/-- SHA-256 padding: append 0x80, zeros, and the 64-bit bit length. -/
def padMessage (msg : List Nat) : List Nat :=
  let len := msg.length
  let zeros := (56 + 64 - ((len + 1) % 64)) % 64
  msg ++ [128] ++ List.replicate zeros 0 ++ be64 (len * 8)

/-- The SHA-256 round constants (fractional cube roots of the first 64 primes). -/
def kConsts : List Nat :=
  [1116352408, 1899447441, 3049323471, 3921009573, 961987163, 1508970993,
   2453635748, 2870763221, 3624381080, 310598401, 607225278, 1426881987,
   1925078388, 2162078206, 2614888103, 3248222580, 3835390401, 4022224774,
   264347078, 604807628, 770255983, 1249150122, 1555081692, 1996064986,
   2554220882, 2821834349, 2952996808, 3210313671, 3336571891, 3584528711,
   113926993, 338241895, 666307205, 773529912, 1294757372, 1396182291,
   1695183700, 1986661051, 2177026350, 2456956037, 2730485921, 2820302411,
   3259730800, 3345764771, 3516065817, 3600352804, 4094571909, 275423344,
   430227734, 506948616, 659060556, 883997877, 958139571, 1322822218,
   1537002063, 1747873779, 1955562222, 2024104815, 2227730452, 2361852424,
   2428436474, 2756734187, 3204031479, 3329325298]

/-- The SHA-256 state: eight 32-bit working variables. -/
structure Hash8 where
  a : Nat
  b : Nat
  c : Nat
  d : Nat
  e : Nat
  f : Nat
  g : Nat
  h : Nat

/-- The SHA-256 initial hash value (fractional square roots of the first 8 primes). -/
def initH : Hash8 :=
  ⟨1779033703, 3144134277, 1013904242, 2773480762,
   1359893119, 2600822924, 528734635, 1541459225⟩

/-- Extend the 16-word block to the full 64-word message schedule, `n` steps. -/
def extendSchedule (ws : List Nat) : Nat → List Nat
  | 0 => ws
  | n + 1 =>
    let cur := extendSchedule ws n
    let len := cur.length
    let w15 := cur.getD (len - 15) 0
    let w2 := cur.getD (len - 2) 0
    let s0 := (rotr32 7 w15) ^^^ (rotr32 18 w15) ^^^ (w15 >>> 3)
    let s1 := (rotr32 17 w2) ^^^ (rotr32 19 w2) ^^^ (w2 >>> 10)
    cur ++ [(cur.getD (len - 16) 0 + s0 + cur.getD (len - 7) 0 + s1) % w32]

/-- One SHA-256 compression round, consuming a (k, w) pair. -/
def sha256Round (s : Hash8) (kw : Nat × Nat) : Hash8 :=
  let bigS1 := (rotr32 6 s.e) ^^^ (rotr32 11 s.e) ^^^ (rotr32 25 s.e)
  let ch := (s.e &&& s.f) ^^^ ((s.e ^^^ (w32 - 1)) &&& s.g)
  let temp1 := (s.h + bigS1 + ch + kw.1 + kw.2) % w32
  let bigS0 := (rotr32 2 s.a) ^^^ (rotr32 13 s.a) ^^^ (rotr32 22 s.a)
  let maj := (s.a &&& s.b) ^^^ (s.a &&& s.c) ^^^ (s.b &&& s.c)
  let temp2 := (bigS0 + maj) % w32
  ⟨(temp1 + temp2) % w32, s.a, s.b, s.c, (s.d + temp1) % w32, s.e, s.f, s.g⟩

/-- Compress one 64-byte block into the running hash state. -/
def compressBlock (h0 : Hash8) (block : List Nat) : Hash8 :=
  let ws := extendSchedule ((chunksOf 4 block).map beBytesToNat) 48
  let s := (kConsts.zip ws).foldl sha256Round h0
  ⟨add32 h0.a s.a, add32 h0.b s.b, add32 h0.c s.c, add32 h0.d s.d,
   add32 h0.e s.e, add32 h0.f s.f, add32 h0.g s.g, add32 h0.h s.h⟩

/-- SHA-256 of a byte string, as its 32-byte digest (Go sha256.Sum256). -/
def sha256Sum (msg : List Nat) : List Nat :=
  let hh := (chunksOf 64 (padMessage msg)).foldl compressBlock initH
  be32 hh.a ++ be32 hh.b ++ be32 hh.c ++ be32 hh.d ++
  be32 hh.e ++ be32 hh.f ++ be32 hh.g ++ be32 hh.h

/-! ## GenerateID (internal/users/manager.go) -/

/-- ASCII lowercase of one byte (Go strings.ToLower on ASCII input). -/
def asciiToLower (b : Nat) : Nat := if 65 ≤ b ∧ b ≤ 90 then b + 32 else b

/-- ASCII uppercase of one byte (Go strings.ToUpper on ASCII input). -/
def asciiToUpper (b : Nat) : Nat := if 97 ≤ b ∧ b ≤ 122 then b - 32 else b

/-- ASCII lowercase of a byte string. -/
def lowerBytes (s : List Nat) : List Nat := s.map asciiToLower

/-- ASCII uppercase of a byte string. -/
def upperBytes (s : List Nat) : List Nat := s.map asciiToUpper

/-- Lower bound of generated IDs (everything below is reserved). -/
def minID : Nat := 65536

/-- Upper bound of generated IDs: math.MaxInt32. -/
def maxID : Nat := 2147483647

/-- The rehash loop of GenerateID: keep rehashing until the projected number
reaches `minID`. Fuel makes the recursion structural; `none` means the fuel
ran out, which the Go loop models as running forever. -/
def genLoop : Nat → List Nat → Option Nat
  | 0, _ => none
  | fuel + 1, hash =>
    let number := beBytesToNat (hash.take 4) % maxID
    if number < minID then genLoop fuel (sha256Sum hash) else some number

/-- GenerateID: deterministically derive an ID from a string, ignoring case
(internal/users/manager.go GenerateID). -/
def GenerateID (fuel : Nat) (str : List Nat) : Option Nat :=
  genLoop fuel (sha256Sum (lowerBytes str))

/-! ## Lang selection (pam client, startBrokerSession) -/

/-- Go strings.TrimSuffix, over the characters of the string. -/
def trimSuffix (s suf : String) : String :=
  let sd := s.data
  let fd := suf.data
  if fd.length ≤ sd.length ∧ sd.drop (sd.length - fd.length) = fd then
    String.mk (sd.take (sd.length - fd.length))
  else s

/-- The lang selector computed by startBrokerSession from the environment
variables LANG, LC_MESSAGES and LC_ALL, mirroring the Go loop: `lang` starts
as "C" and is overwritten by each non-empty variable in that order, then a
trailing ".UTF-8" is stripped. -/
def selectLang (lang lcMessages lcAll : String) : String :=
  let l0 := "C"
  let l1 := if lang ≠ "" then lang else l0
  let l2 := if lcMessages ≠ "" then lcMessages else l1
  let l3 := if lcAll ≠ "" then lcAll else l2
  trimSuffix l3 ".UTF-8"

/-! ## GDM session driver (pam/internal/adapter/gdmmodel.go) -/

/-- Modelled from the spec: the five broker access verdict string constants of
the internal brokers package (AuthGranted, AuthDenied, AuthCancelled,
AuthRetry, AuthNext), whose defining file is not part of the sources. -/
def authGranted : String := "granted"

/-- Modelled from the spec: the Denied access verdict constant. -/
def authDenied : String := "denied"

/-- Modelled from the spec: the Cancelled access verdict constant. -/
def authCancelled : String := "cancelled"

/-- Modelled from the spec: the Retry access verdict constant. -/
def authRetry : String := "retry"

/-- Modelled from the spec: the Next access verdict constant. -/
def authNext : String := "next"

/-- Escape a character list as Go fmt %q and encoding/json do for string
values: backslashes and double quotes get a preceding backslash. -/
def escapeChars (l : List Char) : List Char :=
  l.foldr (fun c acc => if c = '\"' ∨ c = '\\' then '\\' :: c :: acc else c :: acc) []

/-- Escape a string for quoting. -/
def escapeString (s : String) : String := String.mk (escapeChars s.data)

/-- Go fmt %q of a string: double quotes around the escaped content. -/
def goQuote (s : String) : String := "\"" ++ escapeString s ++ "\""

/-- encoding/json Marshal of a string value. -/
def jsonMarshalString (s : String) : String := "\"" ++ escapeString s ++ "\""

/-- The diagnostic payload built for an invalid access verdict:
fmt.Sprintf with %q, marshalled to JSON, wrapped in a message object. -/
def invalidAccessMsg (access : String) : String :=
  "\x7b\"message\": " ++
    jsonMarshalString ("Access " ++ goQuote access ++ " is not valid") ++ "\x7d"

/-- GDM protocol events the driver emits (pam/internal/gdm EventData). -/
inductive GdmEvent
  | userSelected (userId : String)
  | brokersReceived (brokers : List String)
  | brokerSelected (brokerId : String)
  | authModesReceived (authModes : List String)
  | authModeSelected (authModeId : String)
  | uiLayoutReceived (layout : String)
  | startAuthentication
  | authEvent (access msg : String)
deriving DecidableEq

/-- The bubbletea messages handled by gdmModel.Update. -/
inductive Msg
  | gdmPollDone
  | userSelected (username : String)
  | brokersListReceived (brokers : List String)
  | brokerSelected (brokerId : String)
  | authModesReceived (authModes : List String)
  | authModeSelected (id : String)
  | uiLayoutReceived (layout : String)
  | startAuthentication
  | isAuthenticatedResultReceived (access msg : String)
  | isAuthenticatedCancelled (msg : String)
deriving DecidableEq

/-- The bubbletea commands gdmModel.Update can return: nothing, the poll
sequence, a GDM event emission (async or sync), re-sending an internal
message, or a pamError event with status pam.ErrSystem. -/
inductive Cmd
  | nil
  | pollSequence
  | emitEvent (e : GdmEvent)
  | emitEventSync (e : GdmEvent)
  | send (m : Msg)
  | sendPamError (msg : String)
deriving DecidableEq

/-- The gdmModel state relevant to Update. -/
structure gdmModel where
  waitingAuth : Bool
  conversationsStopped : Bool
deriving DecidableEq

/-- gdmModel.Update, parameterised over dataToMsg (defined in a sibling file),
which extracts the message field from the authentication-result JSON data. -/
def gdmModel.Update (dataToMsg : String → Except String String)
    (m : gdmModel) (msg : Msg) : gdmModel × Cmd :=
  if m.conversationsStopped then (m, .nil)
  else
    match msg with
    | .gdmPollDone => (m, .pollSequence)
    | .userSelected username => (m, .emitEvent (.userSelected username))
    | .brokersListReceived brokers => (m, .emitEvent (.brokersReceived brokers))
    | .brokerSelected brokerId => (m, .emitEvent (.brokerSelected brokerId))
    | .authModesReceived authModes => (m, .emitEvent (.authModesReceived authModes))
    | .authModeSelected id => (m, .emitEvent (.authModeSelected id))
    | .uiLayoutReceived layout => (m, .emitEventSync (.uiLayoutReceived layout))
    | .startAuthentication =>
      if m.waitingAuth then (m, .nil)
      else ({ m with waitingAuth := true }, .emitEventSync .startAuthentication)
    | .isAuthenticatedResultReceived access data =>
      match dataToMsg data with
      | .error e => (m, .sendPamError e)
      | .ok authMsg =>
        if access = authGranted ∨ access = authDenied ∨
            access = authRetry ∨ access = authNext then
          (m, .emitEventSync (.authEvent access authMsg))
        else if access = authCancelled then
          (m, .send (.isAuthenticatedCancelled ""))
        else
          (m, .send (.isAuthenticatedResultReceived authDenied (invalidAccessMsg access)))
    | .isAuthenticatedCancelled cmsg =>
      ({ m with waitingAuth := false }, .emitEventSync (.authEvent authCancelled cmsg))

/-! ## User manager (internal/users/manager.go) -/

/-- GroupInfo of the users types: the GID pointer is `none` for local-only
groups. -/
structure GroupInfo where
  name : String
  gid : Option Nat
deriving DecidableEq

/-- UserInfo passed to Manager.UpdateUser. -/
structure UserInfo where
  name : String
  uid : Nat
  gecos : String
  dir : String
  shell : String
  groups : List GroupInfo
deriving DecidableEq

/-- cache.GroupDB as written by UpdateUser (members omitted: UpdateUser always
passes nil). -/
structure GroupDB where
  name : String
  gid : Nat
deriving DecidableEq

/-- cache.UserDB as written by UpdateUser. -/
structure UserDB where
  name : String
  uid : Nat
  gid : Nat
  gecos : String
  dir : String
  shell : String
deriving DecidableEq

/-- The persistent cache content touched by UpdateUser: the user records and
group records (indexes keyed by id and name are modelled as one record list,
since UpdateUserEntry writes both keyings atomically). -/
structure CacheState where
  users : List UserDB
  groups : List GroupDB
deriving DecidableEq

/-- Insert or replace a group record, keyed by gid. -/
def upsertGroup (gs : List GroupDB) (g : GroupDB) : List GroupDB :=
  g :: gs.filter (fun x => x.gid ≠ g.gid)

/-- cache.UpdateUserEntry: atomically writes the user under both keyings and
upserts the given group records. -/
def UpdateUserEntry (c : CacheState) (u : UserDB) (gs : List GroupDB) : CacheState :=
  { users := u :: c.users.filter (fun x => x.uid ≠ u.uid ∧ x.name ≠ u.name),
    groups := gs.foldl upsertGroup c.groups }

/-- cache.DeleteUser: removes the user with this uid from both keyings;
a missing entry is not an error. -/
def DeleteUser (c : CacheState) (uid : Nat) : CacheState :=
  { c with users := c.users.filter (fun x => x.uid ≠ uid) }

/-- The errors Manager.UpdateUser can produce (the local-groups case carries
the message of the reconciliation failure it is joined with). -/
inductive UpdateError
  | emptyUsername
  | noGroupProvided (name : String) (uid : Nat)
  | noGidForDefaultGroup (gname : String)
  | emptyGroupName (uname : String)
  | localGroupsUpdateFailed (msg : String)
deriving DecidableEq

/-- The for-loop of UpdateUser over u.Groups: an empty group name aborts;
a nil GID appends the name to the local groups; otherwise a GroupDB record
is appended to the group contents. -/
def collectGroups (uname : String) : List GroupInfo →
    Except UpdateError (List GroupDB × List String)
  | [] => .ok ([], [])
  | g :: rest =>
    if g.name = "" then .error (.emptyGroupName uname)
    else
      match g.gid with
      | none => (collectGroups uname rest).map (fun p => (p.1, g.name :: p.2))
      | some gid => (collectGroups uname rest).map (fun p => (⟨g.name, gid⟩ :: p.1, p.2))

/-- Manager.UpdateUser, parameterised over the local-groups shim
(localgroups.Update lives outside the sources; only its success or failure
matters here). Returns the cache state after the call together with the
error, if any: the Go method mutates the cache even when it then fails. -/
def UpdateUser (lgUpdate : String → List String → Except String Unit)
    (c : CacheState) (u : UserInfo) : CacheState × Option UpdateError :=
  if u.name = "" then (c, some .emptyUsername)
  else
    match u.groups with
    | [] => (c, some (.noGroupProvided u.name u.uid))
    | g0 :: _ =>
      match g0.gid with
      | none => (c, some (.noGidForDefaultGroup g0.name))
      | some gid0 =>
        match collectGroups u.name u.groups with
        | .error e => (c, some e)
        | .ok (groupContents, localGroups) =>
          let userDB : UserDB := ⟨u.name, u.uid, gid0, u.gecos, u.dir, u.shell⟩
          let c1 := UpdateUserEntry c userDB groupContents
          match lgUpdate u.name localGroups with
          | .ok _ => (c1, none)
          | .error e => (DeleteUser c1 u.uid, some (.localGroupsUpdateFailed e))

/-! ## Manager startup and corruption recovery (internal/users/manager.go) -/

/-- A stored user as seen by the expiry sweep. -/
structure StoredUser where
  name : String
  uid : Nat
  lastLogin : Nat
deriving DecidableEq

/-- The on-disk state NewManager operates on: the database file (its decoded
content, or a corruption that makes opening and reading fail), the
`.corrupted` sentinel beside it, and the local-group memberships the daemon
manages. OS file operations are modelled as succeeding. -/
structure ManagerFS where
  dbCorrupt : Bool
  dbUsers : List StoredUser
  markerPresent : Bool
  managedLocal : List String
deriving DecidableEq

/-- Modelled from the spec: localgroups.Clean (whose file is not part of the
sources) removes from the local groups every daemon-managed user that is no
longer present in the identity store. -/
def localgroupsClean (s : ManagerFS) : ManagerFS :=
  { s with managedLocal :=
      s.managedLocal.filter (fun n => (s.dbUsers.map StoredUser.name).contains n) }

/-- Manager.clear: cache.Clear destroys and recreates the database file,
the dirty flag file is removed, then the local groups are cleaned. -/
def managerClear (s : ManagerFS) : ManagerFS :=
  let s1 : ManagerFS := { s with dbUsers := [], dbCorrupt := false }
  let s2 : ManagerFS := { s1 with markerPresent := false }
  localgroupsClean s2

/-- cache.CleanExpiredUsers: remove every user whose last login is before the
cutoff and whose uid owns no running process; returns the removed names. -/
def CleanExpiredUsers (users : List StoredUser) (active : List Nat)
    (cutoff : Nat) : List StoredUser × List String :=
  (users.filter (fun u => ¬(u.lastLogin < cutoff ∧ ¬active.contains u.uid)),
   (users.filter (fun u => u.lastLogin < cutoff ∧ ¬active.contains u.uid)).map
     StoredUser.name)

/-- Manager.cleanExpiredUserData: sweep expired users, then remove each
removed user from the local groups (localgroups.CleanUser). -/
def cleanExpiredUserData (active : List Nat) (cutoff : Nat)
    (s : ManagerFS) : ManagerFS :=
  let res := CleanExpiredUsers s.dbUsers active cutoff
  { s with dbUsers := res.1,
           managedLocal := s.managedLocal.filter (fun n => ¬res.2.contains n) }

/-- The NewManager options relevant to the startup path. -/
structure MgrOptions where
  cleanOnNew : Bool
  activeUIDs : List Nat
  expirationDate : Nat
deriving DecidableEq

/-- NewManager startup path: try to open the cache (an open of a corrupted
database fails with ErrNeedsClearing, upon which the database file is removed,
the local groups cleaned, and the open retried on the fresh empty file);
then, if the `.corrupted` marker is present, run Manager.clear; then, with
cleanOnNew, run the expiry sweep. -/
def NewManager (opts : MgrOptions) (s : ManagerFS) : ManagerFS :=
  let s1 := if s.dbCorrupt then
      localgroupsClean { s with dbUsers := [], dbCorrupt := false }
    else s
  let s2 := if s1.markerPresent then managerClear s1 else s1
  if opts.cleanOnNew then
    cleanExpiredUserData opts.activeUIDs opts.expirationDate s2
  else s2

/-- Manager.AllUsers as observable after startup: reading a corrupted
database fails with ErrNeedsClearing, otherwise the decoded entries are
returned. -/
def managerAllUsers (s : ManagerFS) : Except String (List StoredUser) :=
  if s.dbCorrupt then .error "ErrNeedsClearing" else .ok s.dbUsers

/-! ## Cache reads (package cache: getUser, UserByID, UserByName) -/

/-- A bbolt bucket key: UpdateUser keys buckets by uid or by name. -/
inductive DBKey
  | intKey (n : Nat)
  | strKey (s : String)
deriving DecidableEq

/-- A stored bucket value: either JSON that decodes to a user record, or
garbled bytes on which json.Unmarshal fails. -/
inductive DBVal
  | decodable (u : UserDB)
  | garbled
deriving DecidableEq

/-- A bbolt bucket: an association list from keys to stored values. -/
structure DBBucket where
  entries : List (DBKey × DBVal)
deriving DecidableEq

/-- The database: named buckets (a missing bucket is itself a corruption). -/
structure DB where
  buckets : List (String × DBBucket)
deriving DecidableEq

/-- The error getUser returns: either the NoDataFoundError, or an error
joined with ErrNeedsClearing carrying the inner failure. -/
inductive GetError
  | noDataFound
  | needsClearing (msg : String)
deriving DecidableEq

/-- getBucket: look a bucket up by name. -/
def getBucket (db : DB) (name : String) : Option DBBucket :=
  (db.buckets.find? (fun p => p.1 = name)).map (fun p => p.2)

/-- getFromBucket: look the key up and decode the value. -/
def getFromBucket (b : DBBucket) (key : DBKey) : Except GetError UserDB :=
  match b.entries.find? (fun p => p.1 = key) with
  | none => .error .noDataFound
  | some (_, .garbled) => .error (.needsClearing "cannot unmarshal user")
  | some (_, .decodable u) => .ok u

/-- getUser (pam sources, package cache): a missing bucket raises
NeedsClearing; a missing key is NoDataFound and is returned as-is;
any other failure is joined with NeedsClearing. -/
def getUser (db : DB) (bucketName : String) (key : DBKey) : Except GetError UserDB :=
  match getBucket db bucketName with
  | none => .error (.needsClearing "bucket does not exist")
  | some bucket =>
    match getFromBucket bucket key with
    | .error .noDataFound => .error .noDataFound
    | .error (.needsClearing msg) => .error (.needsClearing msg)
    | .ok u => .ok u

/-- The id-keyed user bucket name (the constant lives in the cache package). -/
def userByIDBucketName : String := "UserByID"

/-- The name-keyed user bucket name. -/
def userByNameBucketName : String := "UserByName"

/-- Cache.UserByID. -/
def UserByID (db : DB) (uid : Nat) : Except GetError UserDB :=
  getUser db userByIDBucketName (.intKey uid)

/-- Cache.UserByName. -/
def UserByName (db : DB) (name : String) : Except GetError UserDB :=
  getUser db userByNameBucketName (.strKey name)

/-- The raw stored value under a bucket name and key, used to relate the
read operations to the database content. -/
def lookupVal (db : DB) (bucketName : String) (key : DBKey) : Option DBVal :=
  (getBucket db bucketName).bind
    (fun b => (b.entries.find? (fun p => p.1 = key)).map (fun p => p.2))

end Authd

namespace Authd

/-! # Theorems -/

/-- Auxiliary: whenever the GenerateID rehash loop terminates, its value is
the projection of a 32-bit word into [0, maxID) that passed the minID test. -/
theorem genLoop_in_range : ∀ (fuel : Nat) (hash : List Nat) (n : Nat),
    genLoop fuel hash = some n → minID ≤ n ∧ n < 2 ^ 31
  | 0, _, _, h => by simp [genLoop] at h
  | fuel + 1, hash, n, h => by
    rw [genLoop] at h
    split at h
    · exact genLoop_in_range fuel _ n h
    · rename_i hc
      cases h
      simp only [minID, maxID] at hc ⊢
      have hlt : beBytesToNat (hash.take 4) % 2147483647 < 2147483647 :=
        Nat.mod_lt _ (by norm_num)
      have h31 : (2 : Nat) ^ 31 = 2147483648 := by norm_num
      exact ⟨by omega, by rw [h31]; omega⟩

/-- C5: for every fuel and input string, whenever GenerateID returns a value,
that value lies in the half-open range [65536, 2^31). -/
theorem GenerateID_in_range (fuel : Nat) (s : List Nat) (n : Nat)
    (h : GenerateID fuel s = some n) : 65536 ≤ n ∧ n < 2 ^ 31 := by
  have := genLoop_in_range fuel (sha256Sum (lowerBytes s)) n h
  simpa [minID] using this

set_option maxRecDepth 1000000 in
/-- C5 witness: GenerateID at the one-byte string "a" yields 1251442963,
which is in range. -/
theorem GenerateID_in_range_witness : 65536 ≤ 1251442963 ∧ 1251442963 < 2 ^ 31 :=
  GenerateID_in_range 100 [97] 1251442963 (by decide)

/-- Auxiliary: ASCII lowercasing absorbs a prior ASCII uppercasing. -/
theorem asciiToLower_asciiToUpper (b : Nat) :
    asciiToLower (asciiToUpper b) = asciiToLower b := by
  unfold asciiToLower asciiToUpper
  split_ifs <;> omega

/-- Auxiliary: lowercasing a byte string absorbs a prior uppercasing. -/
theorem lowerBytes_upperBytes (s : List Nat) :
    lowerBytes (upperBytes s) = lowerBytes s := by
  unfold lowerBytes upperBytes
  rw [List.map_map]
  exact List.map_congr_left (fun b _ => asciiToLower_asciiToUpper b)

/-- C6: GenerateID is case-insensitive: uppercasing the input does not change
the generated ID. -/
theorem GenerateID_case_insensitive (fuel : Nat) (s : List Nat) :
    GenerateID fuel (upperBytes s) = GenerateID fuel s := by
  unfold GenerateID
  rw [lowerBytes_upperBytes]

/-- C7 counterexample: with LANG="en_US" and LC_ALL="fr_FR" set, the first
non-empty variable in the order LANG, LC_MESSAGES, LC_ALL is "en_US", but the
code passes "fr_FR" to the broker: the last non-empty variable wins. -/
theorem selectLang_first_nonempty_false :
    selectLang "en_US" "" "fr_FR" = "fr_FR" ∧
      ¬selectLang "en_US" "" "fr_FR" = "en_US" := by
  constructor <;> decide

/-- C7 amended: the lang selector is the last non-empty value among LANG,
LC_MESSAGES, LC_ALL in that order (so LC_ALL takes precedence, then
LC_MESSAGES, then LANG), with a trailing ".UTF-8" stripped, and "C" when all
three are empty. -/
theorem selectLang_last_nonempty (lang lcMessages lcAll : String) :
    selectLang lang lcMessages lcAll =
      trimSuffix
        (if lcAll ≠ "" then lcAll
         else if lcMessages ≠ "" then lcMessages
         else if lang ≠ "" then lang
         else "C") ".UTF-8" := by
  unfold selectLang
  split_ifs <;> rfl

/-- C1: while an authentication is pending (waitingAuth), a further
start-authentication request is ignored: the model state is unchanged (the
pending authentication stays pending) and no command is issued, so nothing
is forwarded. -/
theorem gdmUpdate_single_pending_auth (dataToMsg : String → Except String String)
    (m : gdmModel) (hs : m.conversationsStopped = false)
    (hw : m.waitingAuth = true) :
    gdmModel.Update dataToMsg m .startAuthentication = (m, .nil) := by
  unfold gdmModel.Update
  rw [hs, hw]
  simp

/-- C1 witness: a concrete model with a pending authentication ignores the
second start-authentication request. -/
theorem gdmUpdate_single_pending_auth_witness :
    gdmModel.Update (fun _ => .ok "") ⟨true, false⟩ .startAuthentication =
      (⟨true, false⟩, .nil) :=
  gdmUpdate_single_pending_auth (fun _ => .ok "") ⟨true, false⟩ rfl rfl

/-- C8: UpdateUser with an empty username or an empty group list returns an
error and leaves the store untouched. -/
theorem updateUser_rejects_empty (lgUpdate : String → List String → Except String Unit)
    (c : CacheState) (u : UserInfo)
    (h : u.name = "" ∨ u.groups = []) :
    (UpdateUser lgUpdate c u).1 = c ∧
      ((UpdateUser lgUpdate c u).2 = some .emptyUsername ∨
        (UpdateUser lgUpdate c u).2 = some (.noGroupProvided u.name u.uid)) := by
  unfold UpdateUser
  rcases h with h | h
  · simp [h]
  · rw [h]
    by_cases hn : u.name = "" <;> simp [hn]

/-- C8 witness: a user with a name but no groups is rejected and the store is
unchanged. -/
theorem updateUser_rejects_empty_witness :
    (UpdateUser (fun _ _ => .ok ()) ⟨[], []⟩ ⟨"alice", 70000, "", "", "", []⟩).1 =
        ⟨[], []⟩ ∧
      ((UpdateUser (fun _ _ => .ok ()) ⟨[], []⟩
            ⟨"alice", 70000, "", "", "", []⟩).2 = some .emptyUsername ∨
        (UpdateUser (fun _ _ => .ok ()) ⟨[], []⟩
            ⟨"alice", 70000, "", "", "", []⟩).2 =
          some (.noGroupProvided "alice" 70000)) :=
  updateUser_rejects_empty (fun _ _ => .ok ()) ⟨[], []⟩
    ⟨"alice", 70000, "", "", "", []⟩ (Or.inr rfl)

/-- C3: when the corruption marker is present at manager creation, startup
recreates an empty database, removes the marker, cleans the local groups, and
a subsequent AllUsers read succeeds on the empty store. -/
theorem newManager_recovers_from_marker (opts : MgrOptions) (s : ManagerFS)
    (h : s.markerPresent = true) :
    (NewManager opts s).dbUsers = [] ∧
      (NewManager opts s).markerPresent = false ∧
      (NewManager opts s).dbCorrupt = false ∧
      (NewManager opts s).managedLocal = [] ∧
      managerAllUsers (NewManager opts s) = .ok [] := by
  unfold NewManager managerClear localgroupsClean cleanExpiredUserData
    CleanExpiredUsers managerAllUsers
  by_cases hc : s.dbCorrupt <;> by_cases ho : opts.cleanOnNew <;>
    simp [hc, ho, h, List.filter_eq_nil_iff]

/-- C3 witness: a concrete store with one user, the marker present and one
managed local-group membership comes up empty and unmarked. -/
theorem newManager_recovers_from_marker_witness :
    (NewManager ⟨true, [], 100⟩ ⟨false, [⟨"bob", 70000, 0⟩], true, ["bob"]⟩).dbUsers =
        [] ∧
      (NewManager ⟨true, [], 100⟩
          ⟨false, [⟨"bob", 70000, 0⟩], true, ["bob"]⟩).markerPresent = false ∧
      (NewManager ⟨true, [], 100⟩
          ⟨false, [⟨"bob", 70000, 0⟩], true, ["bob"]⟩).dbCorrupt = false ∧
      (NewManager ⟨true, [], 100⟩
          ⟨false, [⟨"bob", 70000, 0⟩], true, ["bob"]⟩).managedLocal = [] ∧
      managerAllUsers
          (NewManager ⟨true, [], 100⟩ ⟨false, [⟨"bob", 70000, 0⟩], true, ["bob"]⟩) =
        .ok [] :=
  newManager_recovers_from_marker ⟨true, [], 100⟩
    ⟨false, [⟨"bob", 70000, 0⟩], true, ["bob"]⟩ rfl

/-- Auxiliary: a full case analysis of getUser against the database content:
a decodable entry is returned, a missing key in an existing bucket is
NoDataFound, and every other outcome carries NeedsClearing. -/
theorem getUser_cases (db : DB) (bucketName : String) (key : DBKey) :
    (∃ u, lookupVal db bucketName key = some (.decodable u) ∧
        getUser db bucketName key = .ok u) ∨
      (getUser db bucketName key = .error .noDataFound ∧
        getBucket db bucketName ≠ none ∧ lookupVal db bucketName key = none) ∨
      (∃ msg, getUser db bucketName key = .error (.needsClearing msg)) := by
  rcases hb : getBucket db bucketName with _ | bucket
  · exact Or.inr (Or.inr ⟨"bucket does not exist", by simp [getUser, hb]⟩)
  · rcases he : bucket.entries.find? (fun p => p.1 = key) with _ | ⟨k, v⟩
    · refine Or.inr (Or.inl ⟨?_, ?_, ?_⟩)
      · simp [getUser, getFromBucket, hb, he]
      · simp [hb]
      · simp [lookupVal, hb, he]
    · cases v with
      | decodable u =>
        exact Or.inl ⟨u, by simp [lookupVal, hb, he],
          by simp [getUser, getFromBucket, hb, he]⟩
      | garbled =>
        exact Or.inr (Or.inr ⟨"cannot unmarshal user",
          by simp [getUser, getFromBucket, hb, he]⟩)

/-- C4: UserByID and UserByName each return the stored record, or NoDataFound
(not NeedsClearing) exactly when no entry exists in the bucket, or, on any
decode or bucket failure, an error joined with NeedsClearing. -/
theorem userReads_record_notfound_or_clearing (db : DB) (uid : Nat) (name : String) :
    ((∃ u, lookupVal db userByIDBucketName (.intKey uid) = some (.decodable u) ∧
          UserByID db uid = .ok u) ∨
        (UserByID db uid = .error .noDataFound ∧
          getBucket db userByIDBucketName ≠ none ∧
          lookupVal db userByIDBucketName (.intKey uid) = none) ∨
        (∃ msg, UserByID db uid = .error (.needsClearing msg))) ∧
      ((∃ u, lookupVal db userByNameBucketName (.strKey name) = some (.decodable u) ∧
          UserByName db name = .ok u) ∨
        (UserByName db name = .error .noDataFound ∧
          getBucket db userByNameBucketName ≠ none ∧
          lookupVal db userByNameBucketName (.strKey name) = none) ∨
        (∃ msg, UserByName db name = .error (.needsClearing msg))) :=
  ⟨getUser_cases db userByIDBucketName (.intKey uid),
   getUser_cases db userByNameBucketName (.strKey name)⟩

/-- Auxiliary: when no group name is empty, the group loop of UpdateUser
succeeds; the persisted group records are exactly the groups carrying a GID,
and the local-group names are exactly the groups without one, in order. -/
theorem collectGroups_ok (uname : String) (gs : List GroupInfo)
    (hnames : ∀ g ∈ gs, g.name ≠ "") :
    collectGroups uname gs = .ok
      (gs.filterMap (fun g => g.gid.map (fun gid => (⟨g.name, gid⟩ : GroupDB))),
       (gs.filter (fun g => g.gid = none)).map GroupInfo.name) := by
  induction gs with
  | nil => rfl
  | cons g rest ih =>
    have hg : ¬g.name = "" := hnames g (by simp)
    have ih2 := ih (fun x hx => hnames x (by simp [hx]))
    unfold collectGroups
    rw [if_neg hg]
    cases hgid : g.gid with
    | none => simp [ih2, hgid, List.filter_cons, List.filterMap_cons, Except.map]
    | some gid => simp [ih2, hgid, List.filter_cons, List.filterMap_cons, Except.map]

/-- C9: the first (default) group of the user must carry a GID: a nil GID
there is an error that leaves the store untouched, while nil-GID groups at
later positions are accepted as local-only groups, which are handed to the
local-groups shim and excluded from the records persisted to the cache. -/
theorem updateUser_default_group_needs_gid
    (lgUpdate : String → List String → Except String Unit)
    (c : CacheState) (u : UserInfo) (g0 : GroupInfo) (rest : List GroupInfo)
    (hname : ¬u.name = "") (hgroups : u.groups = g0 :: rest) :
    (g0.gid = none →
      UpdateUser lgUpdate c u = (c, some (.noGidForDefaultGroup g0.name))) ∧
      (∀ gid0, g0.gid = some gid0 → (∀ g ∈ u.groups, g.name ≠ "") →
        lgUpdate u.name
            ((u.groups.filter (fun g => g.gid = none)).map GroupInfo.name) =
          .ok () →
        UpdateUser lgUpdate c u =
          (UpdateUserEntry c ⟨u.name, u.uid, gid0, u.gecos, u.dir, u.shell⟩
            (u.groups.filterMap
              (fun g => g.gid.map (fun gid => (⟨g.name, gid⟩ : GroupDB)))),
            none)) := by
  constructor
  · intro h0
    simp [UpdateUser, hname, hgroups, h0]
  · intro gid0 h0 hnames hlg
    have hcg := collectGroups_ok u.name u.groups hnames
    rw [hgroups] at hcg hlg
    simp [List.filter_cons, h0] at hlg
    simp [UpdateUser, hname, hgroups, h0, hcg, hlg,
      List.filter_cons, List.filterMap_cons]

/-- C9 witness: a user whose single (default) group has no GID is rejected
with the store untouched. -/
theorem updateUser_default_group_needs_gid_witness :
    ((⟨"grp", none⟩ : GroupInfo).gid = none →
      UpdateUser (fun _ _ => .ok ()) ⟨[], []⟩
          ⟨"alice", 70000, "", "", "", [⟨"grp", none⟩]⟩ =
        (⟨[], []⟩, some (.noGidForDefaultGroup "grp"))) ∧
      (∀ gid0, (⟨"grp", none⟩ : GroupInfo).gid = some gid0 →
        (∀ g ∈ (⟨"alice", 70000, "", "", "", [⟨"grp", none⟩]⟩ : UserInfo).groups,
          g.name ≠ "") →
        (fun (_ : String) (_ : List String) => (.ok () : Except String Unit))
            "alice"
            (((⟨"alice", 70000, "", "", "", [⟨"grp", none⟩]⟩ : UserInfo).groups.filter
                (fun g => g.gid = none)).map GroupInfo.name) = .ok () →
        UpdateUser (fun _ _ => .ok ()) ⟨[], []⟩
            ⟨"alice", 70000, "", "", "", [⟨"grp", none⟩]⟩ =
          (UpdateUserEntry ⟨[], []⟩ ⟨"alice", 70000, gid0, "", "", ""⟩
            ((⟨"alice", 70000, "", "", "", [⟨"grp", none⟩]⟩ : UserInfo).groups.filterMap
              (fun g => g.gid.map (fun gid => (⟨g.name, gid⟩ : GroupDB)))),
            none)) :=
  updateUser_default_group_needs_gid (fun _ _ => .ok ()) ⟨[], []⟩
    ⟨"alice", 70000, "", "", "", [⟨"grp", none⟩]⟩ ⟨"grp", none⟩ []
    (by decide) rfl

/-- Auxiliary: after DeleteUser, no remaining record carries the deleted uid. -/
theorem mem_DeleteUser_ne (c : CacheState) (uid : Nat) (rec : UserDB)
    (h : rec ∈ (DeleteUser c uid).users) : rec.uid ≠ uid := by
  unfold DeleteUser at h
  simp only [List.mem_filter, decide_not] at h
  simpa using h.2

/-- C10: if the cache write of UpdateUser succeeds but the local-groups
reconciliation fails, the just-written user entry is deleted again and the
error is returned, so the user is not visible in the store afterwards. -/
theorem updateUser_rolls_back_on_localgroups_failure
    (lgUpdate : String → List String → Except String Unit)
    (c : CacheState) (u : UserInfo) (g0 : GroupInfo) (rest : List GroupInfo)
    (gid0 : Nat) (emsg : String)
    (hname : ¬u.name = "") (hgroups : u.groups = g0 :: rest)
    (hgid : g0.gid = some gid0) (hnames : ∀ g ∈ u.groups, g.name ≠ "")
    (hlg : lgUpdate u.name
        ((u.groups.filter (fun g => g.gid = none)).map GroupInfo.name) =
      .error emsg) :
    UpdateUser lgUpdate c u =
        (DeleteUser
          (UpdateUserEntry c ⟨u.name, u.uid, gid0, u.gecos, u.dir, u.shell⟩
            (u.groups.filterMap
              (fun g => g.gid.map (fun gid => (⟨g.name, gid⟩ : GroupDB)))))
          u.uid,
          some (.localGroupsUpdateFailed emsg)) ∧
      ∀ rec ∈ (UpdateUser lgUpdate c u).1.users, rec.uid ≠ u.uid := by
  have hcg := collectGroups_ok u.name u.groups hnames
  have heq : UpdateUser lgUpdate c u =
      (DeleteUser
        (UpdateUserEntry c ⟨u.name, u.uid, gid0, u.gecos, u.dir, u.shell⟩
          (u.groups.filterMap
            (fun g => g.gid.map (fun gid => (⟨g.name, gid⟩ : GroupDB)))))
        u.uid,
        some (.localGroupsUpdateFailed emsg)) := by
    rw [hgroups] at hcg hlg
    simp [List.filter_cons, hgid] at hlg
    simp [UpdateUser, hname, hgroups, hgid, hcg, hlg,
      List.filter_cons, List.filterMap_cons]
  refine ⟨heq, fun rec hrec => ?_⟩
  rw [heq] at hrec
  exact mem_DeleteUser_ne _ u.uid rec hrec

/-- C10 witness: with a failing local-groups shim, a concrete UpdateUser call
returns the error and the store no longer contains the user. -/
theorem updateUser_rolls_back_witness :
    UpdateUser (fun _ _ => .error "boom") ⟨[], []⟩
          ⟨"alice", 70000, "", "", "", [⟨"grp", some 70000⟩]⟩ =
        (DeleteUser
          (UpdateUserEntry ⟨[], []⟩ ⟨"alice", 70000, 70000, "", "", ""⟩
            (((⟨"alice", 70000, "", "", "",
                [⟨"grp", some 70000⟩]⟩ : UserInfo)).groups.filterMap
              (fun g => g.gid.map (fun gid => (⟨g.name, gid⟩ : GroupDB)))))
          70000,
          some (.localGroupsUpdateFailed "boom")) ∧
      ∀ rec ∈ (UpdateUser (fun _ _ => .error "boom") ⟨[], []⟩
          ⟨"alice", 70000, "", "", "", [⟨"grp", some 70000⟩]⟩).1.users,
        rec.uid ≠ 70000 :=
  updateUser_rolls_back_on_localgroups_failure (fun _ _ => .error "boom")
    ⟨[], []⟩ ⟨"alice", 70000, "", "", "", [⟨"grp", some 70000⟩]⟩
    ⟨"grp", some 70000⟩ [] 70000 "boom" (by decide) rfl rfl
    (by decide) rfl

/-- Auxiliary: strings with equal character lists are equal. -/
theorem strDataExt (a b : String) (h : a.data = b.data) : a = b := by
  cases a
  cases b
  exact congrArg String.mk h

/-- Auxiliary: the characters of an escaped string. -/
theorem escapeString_data (s : String) :
    (escapeString s).data = escapeChars s.data := rfl

/-- Auxiliary: folding the escape step onto an accumulator prepends the
escaped list. -/
theorem escapeChars_foldr (t acc : List Char) :
    List.foldr
        (fun c acc => if c = '\"' ∨ c = '\\' then '\\' :: c :: acc else c :: acc)
        acc t =
      escapeChars t ++ acc := by
  induction t with
  | nil => rfl
  | cons c t ih =>
    simp only [List.foldr_cons, ih, escapeChars]
    by_cases hc : c = '\"' ∨ c = '\\' <;> simp [hc]

/-- Auxiliary: escaping distributes over concatenation of character lists. -/
theorem escapeChars_append (l1 l2 : List Char) :
    escapeChars (l1 ++ l2) = escapeChars l1 ++ escapeChars l2 := by
  unfold escapeChars
  rw [List.foldr_append, escapeChars_foldr]
  rfl

/-- C2: on an authentication result, the four verdicts Granted, Denied, Retry,
Next are forwarded to GDM with the access verdict unchanged; Cancelled is
re-sent as the cancellation message, whose processing forwards the Cancelled
verdict unchanged; any other verdict is re-sent as a result carrying the
Denied verdict and a diagnostic message that names the invalid verdict. -/
theorem gdmUpdate_auth_result_mapping
    (dataToMsg : String → Except String String) (m : gdmModel)
    (access data authMsg : String)
    (hs : m.conversationsStopped = false)
    (hd : dataToMsg data = .ok authMsg) :
    (access = authGranted ∨ access = authDenied ∨ access = authRetry ∨
        access = authNext →
      gdmModel.Update dataToMsg m (.isAuthenticatedResultReceived access data) =
        (m, .emitEventSync (.authEvent access authMsg))) ∧
      (access = authCancelled →
        gdmModel.Update dataToMsg m (.isAuthenticatedResultReceived access data) =
            (m, .send (.isAuthenticatedCancelled "")) ∧
          gdmModel.Update dataToMsg m (.isAuthenticatedCancelled "") =
            ({ m with waitingAuth := false },
              .emitEventSync (.authEvent authCancelled ""))) ∧
      (¬(access = authGranted ∨ access = authDenied ∨ access = authCancelled ∨
          access = authRetry ∨ access = authNext) →
        gdmModel.Update dataToMsg m (.isAuthenticatedResultReceived access data) =
            (m, .send (.isAuthenticatedResultReceived authDenied
              (invalidAccessMsg access))) ∧
          (escapeString access = access →
            ∃ pre post, invalidAccessMsg access = pre ++ (access ++ post))) := by
  refine ⟨?_, ?_, ?_⟩
  · intro h
    simp only [gdmModel.Update, hs, Bool.false_eq_true, if_false, hd]
    rw [if_pos h]
  · intro h
    subst h
    constructor
    · simp only [gdmModel.Update, hs, Bool.false_eq_true, if_false, hd]
      rw [if_neg (by decide)]
      simp
    · simp only [gdmModel.Update, hs, Bool.false_eq_true, if_false]
  · intro h
    constructor
    · simp only [gdmModel.Update, hs, Bool.false_eq_true, if_false, hd]
      rw [if_neg (fun hk => h (by tauto)), if_neg (fun hk => h (by tauto))]
    · intro hesc
      refine ⟨"\x7b\"message\": " ++ "\"" ++ "Access " ++ "\\\"",
        "\\\"" ++ " is not valid" ++ "\"" ++ "\x7d", ?_⟩
      apply strDataExt
      have hescd : escapeChars access.data = access.data :=
        congrArg String.data hesc
      have eA : escapeChars ("Access ".data) = "Access ".data := rfl
      have eQ : escapeChars ("\"".data) = ("\\\"").data := rfl
      have eV : escapeChars (" is not valid".data) = " is not valid".data := rfl
      simp only [invalidAccessMsg, jsonMarshalString, goQuote,
        String.data_append, escapeString_data, escapeChars_append,
        hescd, eA, eQ, eV, List.append_assoc]

/-- C2 witness: the unknown verdict "invalid" with parsable auxiliary data is
re-sent as a Denied result carrying the diagnostic payload. -/
theorem gdmUpdate_auth_result_mapping_witness :
    gdmModel.Update (fun _ => .ok "msg") ⟨false, false⟩
        (.isAuthenticatedResultReceived "invalid" "data") =
      (⟨false, false⟩, .send (.isAuthenticatedResultReceived authDenied
        (invalidAccessMsg "invalid"))) :=
  ((gdmUpdate_auth_result_mapping (fun _ => .ok "msg") ⟨false, false⟩
      "invalid" "data" "msg" rfl rfl).2.2 (by decide)).1

end Authd
